import Mathlib

/-!
# Verification of the meal-state reconciliation and count-accounting engine

Shallow embedding of the meal accounting core of the smc-meal server
(the fully-featured variant: the `/meal-update`, `/api/meal/staff-update`,
`/api/meal/serve/:userId`, `/api/meal/extra`, `/api/meal/extra-specific`,
`/api/meal/all-users` handlers and the daily cron job).

Dates are modelled as day indices (the server normalises every date to local
midnight); the self-service past-date guard is kept in the source's
millisecond arithmetic.  A user is a running counter `totalMealCount`
together with the list of that user's meal-history documents in insertion
order; `findOne` is first-match lookup, `updateOne` rewrites the first
matching document, `save` of a new document appends.
-/

deriving instance DecidableEq for Except

namespace SMCMeal

/-- The `meal` enum of the `mealhistories` schema:
`['Lunch', 'Dinner', 'Both', 'Off']`. -/
inductive Meal where
  | off
  | lunch
  | dinner
  | both
deriving DecidableEq, Repr

/-- `meal === 'Both' ? 2 : ['Lunch', 'Dinner'].includes(meal) ? 1 : 0` -/
def mealCount (m : Meal) : Int :=
  match m with
  | .both => 2
  | .lunch => 1
  | .dinner => 1
  | .off => 0

/-- One `mealhistories` document (without its key fields). -/
structure MealRec where
  meal : Meal
  additionalItems : List String
  lunchServed : Bool
  dinnerServed : Bool
  dailyMealCount : Int
  isExtra : Bool
deriving DecidableEq, Repr

/-- One user: the denormalised `totalMealCount` counter plus that user's
meal-history documents, as `(day, document)` pairs in insertion order. -/
structure UserState where
  totalMealCount : Int
  recs : List (Nat × MealRec)
deriving DecidableEq, Repr

/-- `MealHistory.findOne({ userId, date })`: first document with that date. -/
def findEntry : List (Nat × MealRec) → Nat → Option MealRec
  | [], _ => none
  | p :: ps, d => if p.1 = d then some p.2 else findEntry ps d

/-- `MealHistory.updateOne({ _id })` on the document `findOne` returned:
rewrite the first document with the given date. -/
def updateFirst : List (Nat × MealRec) → Nat → (MealRec → MealRec) → List (Nat × MealRec)
  | [], _, _ => []
  | p :: ps, d, f => if p.1 = d then (p.1, f p.2) :: ps else p :: updateFirst ps d f

/-- `MealHistory.findOne({ userId, date: { $lt: d } }).sort({ date: -1 })`:
among documents dated before `d`, one with the greatest date (the earliest
inserted of those, on a tie). -/
def mostRecentBefore (recs : List (Nat × MealRec)) (d : Nat) : Option (Nat × MealRec) :=
  recs.foldl
    (fun acc p =>
      if p.1 < d then
        match acc with
        | none => some p
        | some q => if q.1 < p.1 then some p else acc
      else acc)
    none

/-- Σ `dailyMealCount` over a user's documents. -/
def sumDaily (recs : List (Nat × MealRec)) : Int :=
  (recs.map (fun p => p.2.dailyMealCount)).sum

/-- Number of documents dated `d`. -/
def countAt (recs : List (Nat × MealRec)) (d : Nat) : Nat :=
  (recs.filter (fun p => decide (p.1 = d))).length

/-- The typed errors of the HTTP handlers (spec taxonomy in parentheses):
`invalidMeal` is "Invalid meal type" (ValidationError), `pastDate` is
"Cannot update past date" (DateError), `offStatus` is "Cannot serve meal for
Off status" and `notEnabled` is "Lunch/Dinner not enabled" (both
NotEnabledError), `alreadyServed` is "already served" (AlreadyServedError),
`alreadyEnabled` is "already enabled" (AlreadyGrantedError). -/
inductive MealErr where
  | invalidMeal
  | pastDate
  | offStatus
  | alreadyServed
  | notEnabled
  | alreadyEnabled
deriving DecidableEq, Repr

/-- `['Lunch', 'Dinner', 'Both', 'Off'].includes(meal)` plus the string
comparisons the handlers do afterwards. -/
def parseMealChoice : String → Option Meal
  | "Lunch" => some .lunch
  | "Dinner" => some .dinner
  | "Both" => some .both
  | "Off" => some .off
  | _ => none

/-- `['Lunch', 'Dinner'].includes(mealType)` (serve and specific extra). -/
def parseServeSlot : String → Option Meal
  | "Lunch" => some .lunch
  | "Dinner" => some .dinner
  | _ => none

/-- `['Lunch', 'Dinner', 'Both'].includes(mealType)` (bulk extra). -/
def parseExtraType : String → Option Meal
  | "Lunch" => some .lunch
  | "Dinner" => some .dinner
  | "Both" => some .both
  | _ => none

/-- The serialised enum value of a meal state. -/
def mealString : Meal → String
  | .off => "Off"
  | .lunch => "Lunch"
  | .dinner => "Dinner"
  | .both => "Both"

def msPerDay : Nat := 86400000

/-- `new Date(selectedDate.getTime() + 24*60*60*1000 - 1) < new Date()`:
the selected day (day index `d`, so `getTime()` is `d * msPerDay`) already
ended before the current instant `now` (in milliseconds). -/
def pastCheck (d now : Nat) : Bool :=
  decide (d * msPerDay + msPerDay - 1 < now)

/-- The document created when a day has no entry, carried forward from a
previous document when one is given (cron job, serve handler and staff
serving page all build exactly this object):
`meal: previousMeal?.meal || 'Off'`,
`additionalItems: previousMeal?.additionalItems || []`,
`dailyMealCount: previousMeal ? (... ? 2 : ... ? 1 : 0) : 0`,
`lunchServed: false, dinnerServed: false` (`isExtra` defaults to false). -/
def carriedRec (prev : Option MealRec) : MealRec :=
  { meal := match prev with | some p => p.meal | none => .off
    additionalItems := match prev with | some p => p.additionalItems | none => []
    lunchServed := false
    dinnerServed := false
    dailyMealCount := match prev with | some p => mealCount p.meal | none => 0
    isExtra := false }

/-- `additionalItems.filter(Boolean)`: drop the falsy (empty) strings. -/
def filterItems (items : List String) : List String :=
  items.filter (fun s => decide (s ≠ ""))

/-- The delta-based update shared by `POST /meal-update` and
`POST /api/meal/staff-update` once the input is validated.  `items` is
`some` of the submitted `additionalItems` on the self-service path (which
also writes them) and `none` on the staff path (which leaves them alone on
update and writes `[]` on create).  If a document for the date exists, set
`meal`, `dailyMealCount`, recompute the served flags, and `$inc` the user's
counter by `newMealCount - oldMealCount`; otherwise create the document and
`$inc` by `newMealCount`. -/
def mealChangeCore (u : UserState) (d : Nat) (m : Meal) (items : Option (List String)) :
    UserState :=
  let newCount := mealCount m
  match findEntry u.recs d with
  | some r =>
    let r2 : MealRec :=
      { meal := m
        additionalItems := match items with | some xs => xs | none => r.additionalItems
        dailyMealCount := newCount
        lunchServed := if m = .both ∨ m = .lunch then r.lunchServed else false
        dinnerServed := if m = .both ∨ m = .dinner then r.dinnerServed else false
        isExtra := r.isExtra }
    { totalMealCount := u.totalMealCount + (newCount - mealCount r.meal)
      recs := updateFirst u.recs d (fun _ => r2) }
  | none =>
    { totalMealCount := u.totalMealCount + newCount
      recs := u.recs ++ [(d,
        { meal := m
          additionalItems := match items with | some xs => xs | none => []
          dailyMealCount := newCount
          lunchServed := false
          dinnerServed := false
          isExtra := false })] }

/-- `POST /meal-update` (self-service): validate the meal enum, reject a
fully elapsed (past) day, then run the delta-based update writing the
submitted `additionalItems`. -/
def selfMealUpdate (u : UserState) (now d : Nat) (mealStr : String)
    (items : List String) : Except MealErr UserState :=
  match parseMealChoice mealStr with
  | none => .error .invalidMeal
  | some m =>
    if pastCheck d now then .error .pastDate
    else .ok (mealChangeCore u d m (some (filterItems items)))

/-- `POST /api/meal/staff-update`: validate the meal enum, no date
restriction, then run the delta-based update (no `additionalItems`). -/
def staffMealUpdate (u : UserState) (d : Nat) (mealStr : String) :
    Except MealErr UserState :=
  match parseMealChoice mealStr with
  | none => .error .invalidMeal
  | some m => .ok (mealChangeCore u d m none)

/-- The document `POST /api/meal/serve/:userId` works on: the one found for
the date, or — when none exists — the one it synthesises and saves, carried
forward from the most recent earlier document. -/
def serveTarget (u : UserState) (d : Nat) : MealRec :=
  match findEntry u.recs d with
  | some r => r
  | none => carriedRec ((mostRecentBefore u.recs d).map (fun q => q.2))

/-- The user's documents after the serve handler's find-or-synthesise step. -/
def serveRecs (u : UserState) (d : Nat) : List (Nat × MealRec) :=
  match findEntry u.recs d with
  | some _ => u.recs
  | none => u.recs ++ [(d, carriedRec ((mostRecentBefore u.recs d).map (fun q => q.2)))]

/-- `POST /api/meal/serve/:userId`: validate the slot, find or synthesise the
day's document, refuse Off status, refuse an already served slot, refuse a
slot the meal does not include, else set that slot's served flag.  The user's
counter is never touched. -/
def serveMeal (u : UserState) (d : Nat) (slotStr : String) :
    UserState × Option MealErr :=
  match parseServeSlot slotStr with
  | none => (u, some .invalidMeal)
  | some slot =>
    let mh := serveTarget u d
    let u1 : UserState := { totalMealCount := u.totalMealCount, recs := serveRecs u d }
    if mh.meal = .off then (u1, some .offStatus)
    else if (slot = .lunch ∧ mh.lunchServed) ∨ (slot = .dinner ∧ mh.dinnerServed) then
      (u1, some .alreadyServed)
    else if slot = .lunch ∧ ¬(mh.meal = .lunch ∨ mh.meal = .both) then
      (u1, some .notEnabled)
    else if slot = .dinner ∧ ¬(mh.meal = .dinner ∨ mh.meal = .both) then
      (u1, some .notEnabled)
    else
      ({ totalMealCount := u.totalMealCount
         recs := updateFirst u1.recs d (fun rr =>
           if slot = .lunch then { rr with lunchServed := true }
           else { rr with dinnerServed := true }) }, none)

/-- `POST /api/meal/extra-specific`: validate the slot; find the day's
document or create an Off one; Off gets the slot (count 1), the opposite
single slot gets Both (count 2), a meal already including the slot is
refused untouched; on success write the new meal, its count, the recomputed
served flags and `isExtra: true`, and `$inc` the counter by
`newMealCount - oldMealCount`. -/
def grantExtra (u : UserState) (d : Nat) (slotStr : String) :
    UserState × Option MealErr :=
  match parseServeSlot slotStr with
  | none => (u, some .invalidMeal)
  | some slot =>
    let found := findEntry u.recs d
    let mh := match found with
      | some r => r
      | none => carriedRec none
    let recs1 := match found with
      | some _ => u.recs
      | none => u.recs ++ [(d, carriedRec none)]
    let u1 : UserState := { totalMealCount := u.totalMealCount, recs := recs1 }
    match
      (if mh.meal = .off then some (slot, (1 : Int))
       else if (mh.meal = .lunch ∧ slot = .dinner) ∨ (mh.meal = .dinner ∧ slot = .lunch) then
         some (.both, 2)
       else none : Option (Meal × Int)) with
    | none => (u1, some .alreadyEnabled)
    | some nm =>
      ({ totalMealCount := u.totalMealCount + (nm.2 - mealCount mh.meal)
         recs := updateFirst recs1 d (fun rr =>
           { meal := nm.1
             additionalItems := rr.additionalItems
             dailyMealCount := nm.2
             lunchServed := if nm.1 = .both ∨ nm.1 = .lunch then rr.lunchServed else false
             dinnerServed := if nm.1 = .both ∨ nm.1 = .dinner then rr.dinnerServed else false
             isExtra := true }) }, none)

/-- One user's step of the daily cron job: if today has no document, create
one carried forward from the document dated exactly yesterday (or Off/0);
then recompute `dailyMealCount` from the document's meal and `$inc` the
user's counter by `mealCount - mealHistory.dailyMealCount`, where
`mealHistory` is the document as found or just created. -/
def rolloverUser (u : UserState) (today : Nat) : UserState :=
  let found := findEntry u.recs today
  let mh := match found with
    | some r => r
    | none => carriedRec (findEntry u.recs (today - 1))
  let recs1 := match found with
    | some _ => u.recs
    | none => u.recs ++ [(today, carriedRec (findEntry u.recs (today - 1)))]
  let mc := mealCount mh.meal
  { totalMealCount := u.totalMealCount + (mc - mh.dailyMealCount)
    recs := updateFirst recs1 today (fun rr => { rr with dailyMealCount := mc }) }

/-- The cron job iterates `User.find()`; each user's step is independent. -/
def rolloverAll (us : List UserState) (today : Nat) : List UserState :=
  us.map (fun u => rolloverUser u today)

/-- The document written by the bulk extra's
`updateMany({ date, meal: 'Off' }, { meal, lunchServed: false,
dinnerServed: false, dailyMealCount: ..., isExtra: true })`. -/
def flippedRec (mt : Meal) (r : MealRec) : MealRec :=
  { meal := mt
    additionalItems := r.additionalItems
    lunchServed := false
    dinnerServed := false
    dailyMealCount := if mt = .both then 2 else 1
    isExtra := true }

/-- `updateMany({ date: d, meal: 'Off' }, ...)` restricted to one user's
documents. -/
def bulkFlipRecs (d : Nat) (mt : Meal) (recs : List (Nat × MealRec)) :
    List (Nat × MealRec) :=
  recs.map (fun p => if p.1 = d ∧ p.2.meal = .off then (p.1, flippedRec mt p.2) else p)

/-- One user's share of the bulk update's `modifiedCount`. -/
def bulkModifiedCount (d : Nat) (u : UserState) : Nat :=
  (u.recs.filter (fun p => decide (p.1 = d ∧ p.2.meal = .off))).length

/-- `User.updateMany({ _id: { $in: userIds } }, { $inc: ... })` where
`userIds` collects every user with a document `{ date: d, meal: mealType }`
after the flip. -/
def bulkIncUser (d : Nat) (mt : Meal) (u : UserState) : UserState :=
  if u.recs.any (fun p => decide (p.1 = d ∧ p.2.meal = mt)) then
    { totalMealCount := u.totalMealCount + (if mt = .both then 2 else 1), recs := u.recs }
  else u

/-- `POST /api/meal/extra`: validate the meal type; flip every existing Off
document of the date; if at least one document was modified, `$inc` the
counter of every user who now has a document of that date whose meal equals
the granted type; report `modifiedCount`. -/
def grantExtraAll (us : List UserState) (d : Nat) (mtStr : String) :
    Except MealErr (List UserState × Nat) :=
  match parseExtraType mtStr with
  | none => .error .invalidMeal
  | some mt =>
    let modifiedCount := (us.map (fun u => bulkModifiedCount d u)).sum
    let us1 := us.map (fun u =>
      { totalMealCount := u.totalMealCount, recs := bulkFlipRecs d mt u.recs : UserState })
    let us2 := if 0 < modifiedCount then us1.map (fun u => bulkIncUser d mt u) else us1
    .ok (us2, modifiedCount)

/-- `GET /api/meal/all-users`: one user's `offMeals` list, derived from the
day's document (or the default `{ meal: 'Off', lunchServed: false,
dinnerServed: false }` when the user has none). -/
def offMealsAllUsers (r : Option MealRec) : List String :=
  let mh := match r with
    | some x => x
    | none =>
      { meal := .off, additionalItems := [], lunchServed := false,
        dinnerServed := false, dailyMealCount := 0, isExtra := false }
  if mh.meal = .off then ["Lunch", "Dinner"]
  else if mh.meal = .lunch ∧ mh.lunchServed = false then ["Dinner"]
  else if mh.meal = .dinner ∧ mh.dinnerServed = false then ["Lunch"]
  else if mh.meal = .both ∧ mh.lunchServed = false then ["Lunch"]
  else if mh.meal = .both ∧ mh.dinnerServed = false then ["Dinner"]
  else []

/-- `GET /api/meal/off-users` (the earlier variant of the same query): the
single-meal branches report the meal's own slot instead. -/
def offMealsOffUsers (r : Option MealRec) : List String :=
  let mh := match r with
    | some x => x
    | none =>
      { meal := .off, additionalItems := [], lunchServed := false,
        dinnerServed := false, dailyMealCount := 0, isExtra := false }
  if mh.meal = .off then ["Lunch", "Dinner"]
  else if mh.meal = .lunch ∧ mh.lunchServed = false then ["Lunch"]
  else if mh.meal = .dinner ∧ mh.dinnerServed = false then ["Dinner"]
  else if mh.meal = .both ∧ mh.lunchServed = false then ["Lunch"]
  else if mh.meal = .both ∧ mh.dinnerServed = false then ["Dinner"]
  else []

/-- The `GET /api/meal/all-users` handler as a state transformer: it only
runs `find` queries, so the store it returns is the store it was given. -/
def allUsersQuery (us : List UserState) (d : Nat) :
    List UserState × List (List String) :=
  (us, us.map (fun u => offMealsAllUsers (findEntry u.recs d)))

/-- The `GET /api/meal/off-users` handler as a state transformer. -/
def offUsersQuery (us : List UserState) (d : Nat) :
    List UserState × List (List String) :=
  (us, us.map (fun u => offMealsOffUsers (findEntry u.recs d)))

/-- The meal state the pending-slot queries see for a user: the day's
document's meal, or Off when the user has no document. -/
def mealOf (r : Option MealRec) : Meal :=
  match r with
  | some x => x.meal
  | none => .off

/-- The `lunchServed` flag the pending-slot queries see (false by default). -/
def lunchServedOf (r : Option MealRec) : Bool :=
  match r with
  | some x => x.lunchServed
  | none => false

/-- The `dinnerServed` flag the pending-slot queries see (false by default). -/
def dinnerServedOf (r : Option MealRec) : Bool :=
  match r with
  | some x => x.dinnerServed
  | none => false

/-- The serialised slot: `"Lunch"` when `isL`, else `"Dinner"`. -/
def slotName (isL : Bool) : String := if isL then "Lunch" else "Dinner"

/-- The meal state of a single slot. -/
def slotMeal (isL : Bool) : Meal := if isL then .lunch else .dinner

/-- A slot's served flag on a document. -/
def slotFlag (isL : Bool) (r : MealRec) : Bool :=
  if isL then r.lunchServed else r.dinnerServed

/-- Invariant I3 on one document: a served flag can be set only when the
meal includes its slot.  Every handler of the engine preserves it, and the
serve handler's behaviour is specified on documents satisfying it. -/
def flagsOk (r : MealRec) : Prop :=
  (r.lunchServed = true → r.meal = .lunch ∨ r.meal = .both) ∧
  (r.dinnerServed = true → r.meal = .dinner ∨ r.meal = .both)

/-- The meal state enables the slot: serving Lunch needs meal in
`{Lunch, Both}`, serving Dinner needs meal in `{Dinner, Both}`. -/
def mealIncludes (m : Meal) (isL : Bool) : Prop :=
  m = slotMeal isL ∨ m = .both

/-- A document stripped of its `additionalItems`: the fields the delta-based
update algorithm governs (meal, count, served flags, extra mark). -/
def recCore (r : MealRec) : Meal × Int × Bool × Bool × Bool :=
  (r.meal, r.dailyMealCount, r.lunchServed, r.dinnerServed, r.isExtra)

/-! ## Lemmas about the document-list primitives -/

theorem findEntry_updateFirst (recs : List (Nat × MealRec)) (d : Nat)
    (f : MealRec → MealRec) :
    findEntry (updateFirst recs d f) d = (findEntry recs d).map f := by
  induction recs with
  | nil => rfl
  | cons p ps ih =>
    by_cases h : p.1 = d
    · simp [updateFirst, findEntry, h]
    · simp [updateFirst, findEntry, h, ih]

theorem findEntry_updateFirst_ne (recs : List (Nat × MealRec)) (d d2 : Nat)
    (f : MealRec → MealRec) (h : d2 ≠ d) :
    findEntry (updateFirst recs d f) d2 = findEntry recs d2 := by
  induction recs with
  | nil => rfl
  | cons p ps ih =>
    obtain ⟨pd, pr⟩ := p
    by_cases hp : pd = d
    · simp [updateFirst, findEntry, hp, Ne.symm h]
    · by_cases hq : pd = d2
      · simp [updateFirst, findEntry, hp, hq, h]
      · simp [updateFirst, findEntry, hp, hq, ih]

theorem findEntry_append_self (recs : List (Nat × MealRec)) (d : Nat) (r : MealRec)
    (h : findEntry recs d = none) :
    findEntry (recs ++ [(d, r)]) d = some r := by
  induction recs with
  | nil => simp [findEntry]
  | cons p ps ih =>
    by_cases hp : p.1 = d
    · simp [findEntry, hp] at h
    · simp [findEntry, hp] at h ⊢
      exact ih h

theorem findEntry_append_ne (recs : List (Nat × MealRec)) (d d2 : Nat) (r : MealRec)
    (h : d2 ≠ d) :
    findEntry (recs ++ [(d, r)]) d2 = findEntry recs d2 := by
  induction recs with
  | nil => simp [findEntry, Ne.symm h]
  | cons p ps ih =>
    by_cases hp : p.1 = d2
    · simp [findEntry, hp]
    · simp [findEntry, hp, ih]

theorem updateFirst_append_self (recs : List (Nat × MealRec)) (d : Nat) (r : MealRec)
    (f : MealRec → MealRec) (h : findEntry recs d = none) :
    updateFirst (recs ++ [(d, r)]) d f = recs ++ [(d, f r)] := by
  induction recs with
  | nil => simp [updateFirst]
  | cons p ps ih =>
    by_cases hp : p.1 = d
    · simp [findEntry, hp] at h
    · simp [findEntry, hp] at h
      simp [updateFirst, hp, ih h]

theorem updateFirst_eq_self (recs : List (Nat × MealRec)) (d : Nat)
    (f : MealRec → MealRec) (r : MealRec) (h : findEntry recs d = some r)
    (hf : f r = r) :
    updateFirst recs d f = recs := by
  induction recs with
  | nil => rfl
  | cons p ps ih =>
    obtain ⟨pd, pr⟩ := p
    by_cases hp : pd = d
    · simp [findEntry, hp] at h
      subst h
      simp [updateFirst, hp, hf]
    · simp [findEntry, hp] at h
      simp [updateFirst, hp, ih h]

theorem countAt_nil (d : Nat) : countAt [] d = 0 := rfl

theorem countAt_append (recs recs2 : List (Nat × MealRec)) (d : Nat) :
    countAt (recs ++ recs2) d = countAt recs d + countAt recs2 d := by
  simp [countAt, List.filter_append]

theorem updateFirst_map_fst (recs : List (Nat × MealRec)) (d : Nat)
    (f : MealRec → MealRec) :
    (updateFirst recs d f).map Prod.fst = recs.map Prod.fst := by
  induction recs with
  | nil => rfl
  | cons p ps ih =>
    obtain ⟨pd, pr⟩ := p
    by_cases hp : pd = d <;> simp [updateFirst, hp, ih]

theorem countAt_eq_keys (recs : List (Nat × MealRec)) (d2 : Nat) :
    countAt recs d2 = ((recs.map Prod.fst).filter (fun k => decide (k = d2))).length := by
  induction recs with
  | nil => rfl
  | cons p ps ih =>
    obtain ⟨pd, pr⟩ := p
    by_cases hq : pd = d2 <;> simp [countAt, List.filter_cons, hq] <;> simpa [countAt] using ih

theorem countAt_updateFirst (recs : List (Nat × MealRec)) (d d2 : Nat)
    (f : MealRec → MealRec) :
    countAt (updateFirst recs d f) d2 = countAt recs d2 := by
  rw [countAt_eq_keys, countAt_eq_keys, updateFirst_map_fst]

theorem countAt_eq_zero (recs : List (Nat × MealRec)) (d : Nat)
    (h : findEntry recs d = none) : countAt recs d = 0 := by
  induction recs with
  | nil => rfl
  | cons p ps ih =>
    by_cases hp : p.1 = d
    · simp [findEntry, hp] at h
    · simp [findEntry, hp] at h
      simpa [countAt, List.filter, hp] using ih h

theorem countAt_pos (recs : List (Nat × MealRec)) (d : Nat) (r : MealRec)
    (h : findEntry recs d = some r) : 0 < countAt recs d := by
  induction recs with
  | nil => simp [findEntry] at h
  | cons p ps ih =>
    by_cases hp : p.1 = d
    · simp [countAt, List.filter, hp]
    · simp [findEntry, hp] at h
      simpa [countAt, List.filter, hp] using ih h

theorem mem_of_findEntry (recs : List (Nat × MealRec)) (d : Nat) (r : MealRec)
    (h : findEntry recs d = some r) : (d, r) ∈ recs := by
  induction recs with
  | nil => simp [findEntry] at h
  | cons p ps ih =>
    obtain ⟨pd, pr⟩ := p
    by_cases hp : pd = d
    · simp [findEntry, hp] at h
      subst hp
      subst h
      exact List.mem_cons_self _ _
    · simp [findEntry, hp] at h
      exact List.mem_cons_of_mem _ (ih h)

theorem findEntry_of_mem_nodup (recs : List (Nat × MealRec)) (d : Nat) (r : MealRec)
    (hnd : (recs.map Prod.fst).Nodup) (hm : (d, r) ∈ recs) :
    findEntry recs d = some r := by
  induction recs with
  | nil => simp at hm
  | cons p ps ih =>
    simp only [List.map_cons, List.nodup_cons] at hnd
    rcases List.mem_cons.mp hm with hh | ht
    · simp [findEntry, ← hh]
    · by_cases hp : p.1 = d
      · exact absurd (hp ▸ List.mem_map_of_mem Prod.fst ht) hnd.1
      · simp [findEntry, hp]
        exact ih hnd.2 ht

theorem findEntry_none_iff (recs : List (Nat × MealRec)) (d : Nat) :
    findEntry recs d = none ↔ ∀ p ∈ recs, p.1 ≠ d := by
  induction recs with
  | nil => simp [findEntry]
  | cons p ps ih =>
    by_cases hp : p.1 = d
    · simp [findEntry, hp]
    · simp [findEntry, hp, ih]

/-- The carried-forward document's stored count is the count of its meal. -/
theorem carriedRec_count (prev : Option MealRec) :
    (carriedRec prev).dailyMealCount = mealCount (carriedRec prev).meal := by
  cases prev <;> rfl

/-! ## Lemmas about validation and the handlers' shared pieces -/

theorem parse_mealString (m : Meal) : parseMealChoice (mealString m) = some m := by
  cases m <;> rfl

theorem parse_slotName (isL : Bool) :
    parseServeSlot (slotName isL) = some (slotMeal isL) := by
  cases isL <;> rfl

theorem parseExtraType_ne_off (s : String) (m : Meal)
    (h : parseExtraType s = some m) : m ≠ .off := by
  unfold parseExtraType at h
  split at h <;> simp only [Option.some.injEq, reduceCtorEq] at h
  all_goals subst h
  all_goals decide

/-- The self-service past-date guard fires exactly on the days strictly
before the current one (`now / msPerDay` is the current day index). -/
theorem pastCheck_iff (d now : Nat) :
    pastCheck d now = true ↔ d < now / msPerDay := by
  unfold pastCheck msPerDay
  rw [decide_eq_true_iff]
  omega

/-- After the serve handler's find-or-synthesise step, the day's document is
exactly `serveTarget`. -/
theorem serveRecs_find (u : UserState) (d : Nat) :
    findEntry (serveRecs u d) d = some (serveTarget u d) := by
  cases hf : findEntry u.recs d with
  | some r => simp [serveRecs, serveTarget, hf]
  | none =>
    simp only [serveRecs, serveTarget, hf]
    exact findEntry_append_self _ _ _ hf

/-- After a rollover pass the user has a document for today whose stored
count agrees with its meal. -/
theorem rolloverUser_today (u : UserState) (t : Nat) :
    ∃ r2, findEntry (rolloverUser u t).recs t = some r2 ∧
      r2.dailyMealCount = mealCount r2.meal := by
  cases hf : findEntry u.recs t with
  | some r =>
    refine ⟨{ r with dailyMealCount := mealCount r.meal }, ?_, rfl⟩
    simp [rolloverUser, hf, findEntry_updateFirst]
  | none =>
    refine ⟨{ carriedRec (findEntry u.recs (t - 1)) with
      dailyMealCount := mealCount (carriedRec (findEntry u.recs (t - 1))).meal }, ?_, rfl⟩
    simp only [rolloverUser, hf]
    rw [updateFirst_append_self _ _ _ _ hf]
    exact findEntry_append_self _ _ _ hf

/-- A rollover pass is the identity on a user whose today-document exists
and has a consistent stored count. -/
theorem rolloverUser_eq_self (u : UserState) (t : Nat) (r : MealRec)
    (hf : findEntry u.recs t = some r) (hc : r.dailyMealCount = mealCount r.meal) :
    rolloverUser u t = u := by
  unfold rolloverUser
  rw [hf]
  dsimp only
  rw [← hc, updateFirst_eq_self u.recs t _ r hf rfl]
  simp

theorem rolloverUser_idem (u : UserState) (t : Nat) :
    rolloverUser (rolloverUser u t) t = rolloverUser u t := by
  obtain ⟨r2, hf, hc⟩ := rolloverUser_today u t
  exact rolloverUser_eq_self _ _ _ hf hc

theorem rolloverUser_countAt (u : UserState) (t : Nat) :
    countAt (rolloverUser u t).recs t = max (countAt u.recs t) 1 := by
  cases hf : findEntry u.recs t with
  | some r =>
    simp only [rolloverUser, hf]
    rw [countAt_updateFirst]
    have := countAt_pos u.recs t r hf
    omega
  | none =>
    simp only [rolloverUser, hf]
    rw [countAt_updateFirst, countAt_append]
    have h0 := countAt_eq_zero u.recs t hf
    have h1 : countAt [(t, carriedRec (findEntry u.recs (t - 1)))] t = 1 := by
      simp [countAt, List.filter_cons]
    omega

/-- The delta-based update ignores which `additionalItems` payload it is
given everywhere outside the `additionalItems` field itself: the staff and
self-service paths agree on the counter and on every document's core. -/
theorem mealChangeCore_items_agree (u : UserState) (d : Nat) (m : Meal)
    (i1 i2 : Option (List String)) :
    (mealChangeCore u d m i1).totalMealCount =
      (mealChangeCore u d m i2).totalMealCount ∧
    ∀ d2, (findEntry (mealChangeCore u d m i1).recs d2).map recCore =
      (findEntry (mealChangeCore u d m i2).recs d2).map recCore := by
  cases hf : findEntry u.recs d with
  | some r =>
    refine ⟨by simp [mealChangeCore, hf], ?_⟩
    intro d2
    by_cases hd : d2 = d
    · subst hd
      simp [mealChangeCore, hf, findEntry_updateFirst, recCore]
    · simp [mealChangeCore, hf, findEntry_updateFirst_ne _ _ _ _ hd]
  | none =>
    refine ⟨by simp [mealChangeCore, hf], ?_⟩
    intro d2
    by_cases hd : d2 = d
    · subst hd
      simp [mealChangeCore, hf, findEntry_append_self _ _ _ hf, recCore]
    · simp [mealChangeCore, hf, findEntry_append_ne _ _ _ _ hd]

/-! ## Lemmas about the bulk extra-grant -/

theorem findEntry_bulkFlip (recs : List (Nat × MealRec)) (d : Nat) (mt : Meal)
    (d2 : Nat) :
    findEntry (bulkFlipRecs d mt recs) d2 =
      (findEntry recs d2).map
        (fun r => if d2 = d ∧ r.meal = .off then flippedRec mt r else r) := by
  induction recs with
  | nil => rfl
  | cons p ps ih =>
    obtain ⟨pd, pr⟩ := p
    have hcons : bulkFlipRecs d mt ((pd, pr) :: ps) =
        (if pd = d ∧ pr.meal = .off then (pd, flippedRec mt pr) else (pd, pr)) ::
          bulkFlipRecs d mt ps := by
      simp [bulkFlipRecs]
    by_cases hc : pd = d ∧ pr.meal = .off
    · rw [hcons, if_pos hc]
      by_cases hp : pd = d2
      · subst hp
        simp [findEntry, hc.2, hc.1]
      · simp [findEntry, hp, ih]
    · rw [hcons, if_neg hc]
      by_cases hp : pd = d2
      · subst hp
        have hg : ¬ (pd = d ∧ pr.meal = .off) := hc
        simp only [findEntry, if_pos rfl]
        simp [hg]
      · simp [findEntry, hp, ih]

theorem bulkFlip_eq_self (d : Nat) (mt : Meal) (recs : List (Nat × MealRec))
    (h : ∀ p ∈ recs, p.1 = d → p.2.meal ≠ .off) :
    bulkFlipRecs d mt recs = recs := by
  unfold bulkFlipRecs
  have hpt : ∀ p ∈ recs,
      (if p.1 = d ∧ p.2.meal = .off then (p.1, flippedRec mt p.2) else p) = p := by
    intro p hp
    rw [if_neg]
    rintro ⟨h1, h2⟩
    exact h p hp h1 h2
  exact (List.map_congr_left hpt).trans (List.map_id _)

theorem bulkAny_false (d : Nat) (mt : Meal) (recs : List (Nat × MealRec))
    (h : findEntry recs d = none) :
    recs.any (fun p => decide (p.1 = d ∧ p.2.meal = mt)) = false := by
  rw [← Bool.not_eq_true, List.any_eq_true]
  rintro ⟨p, hp, hd⟩
  simp only [decide_eq_true_eq] at hd
  exact (findEntry_none_iff recs d).mp h p hp hd.1

theorem bulkAny_true (d : Nat) (mt : Meal) (recs : List (Nat × MealRec))
    (r : MealRec) (hf : findEntry recs d = some r) (hm : r.meal = mt) :
    recs.any (fun p => decide (p.1 = d ∧ p.2.meal = mt)) = true := by
  rw [List.any_eq_true]
  exact ⟨(d, r), mem_of_findEntry _ _ _ hf, by simp [hm]⟩

theorem bulkModified_pos (d : Nat) (u : UserState) (r : MealRec)
    (hf : findEntry u.recs d = some r) (hm : r.meal = .off) :
    0 < bulkModifiedCount d u := by
  have hmem : (d, r) ∈ u.recs.filter (fun p => decide (p.1 = d ∧ p.2.meal = .off)) :=
    List.mem_filter.mpr ⟨mem_of_findEntry _ _ _ hf, by simp [hm]⟩
  exact List.length_pos_of_mem hmem

theorem bulkIncUser_pos (d : Nat) (mt : Meal) (u : UserState)
    (h : u.recs.any (fun p => decide (p.1 = d ∧ p.2.meal = mt)) = true) :
    bulkIncUser d mt u =
      { totalMealCount := u.totalMealCount + (if mt = .both then 2 else 1),
        recs := u.recs } := by
  unfold bulkIncUser
  rw [if_pos h]

theorem bulkIncUser_neg (d : Nat) (mt : Meal) (u : UserState)
    (h : u.recs.any (fun p => decide (p.1 = d ∧ p.2.meal = mt)) = false) :
    bulkIncUser d mt u = u := by
  unfold bulkIncUser
  have hnc : ¬ (u.recs.any (fun p => decide (p.1 = d ∧ p.2.meal = mt)) = true) := by
    rw [h]
    simp
  rw [if_neg hnc]

theorem forall₂_map_of_mem {α β : Type} {l : List α} {g : α → β}
    {P : α → β → Prop} (h : ∀ u ∈ l, P u (g u)) : List.Forall₂ P l (l.map g) := by
  induction l with
  | nil => exact List.Forall₂.nil
  | cons a as ih =>
    exact List.Forall₂.cons (h a (List.mem_cons_self a as))
      (ih fun u hu => h u (List.mem_cons_of_mem _ hu))

/-- With one document per date (the store's unique `(userId, date)` index),
any entry dated `d` is the one `findOne` returns. -/
theorem nodup_snd_of_mem (u : UserState) (hnd : (u.recs.map Prod.fst).Nodup)
    (p : Nat × MealRec) (hp : p ∈ u.recs) (d : Nat) (hd : p.1 = d) (r : MealRec)
    (hf : findEntry u.recs d = some r) : p.2 = r := by
  have h1 : findEntry u.recs p.1 = some p.2 := by
    have : (p.1, p.2) ∈ u.recs := by simpa using hp
    exact findEntry_of_mem_nodup _ _ _ hnd this
  rw [hd, hf] at h1
  exact (Option.some.injEq _ _ ▸ h1).symm

/-! ## The claims -/

/-- C1: the invariant `totalMealCount = Σ dailyMealCount` does NOT survive
every operation.  This evaluates the code at the failing input: a user with
`totalMealCount = 2` and one consistent document (day 4, Both, count 2)
satisfies the invariant, yet after the daily rollover on day 5 — which
creates today's document by carrying Both forward with `dailyMealCount = 2`
but applies the counter increment `mealCount - mealHistory.dailyMealCount = 0`
— the counter (still 2) no longer equals the sum (now 4). -/
theorem rollover_breaks_count_invariant :
    (⟨2, [(4, ⟨.both, [], false, false, 2, false⟩)]⟩ : UserState).totalMealCount =
      sumDaily (⟨2, [(4, ⟨.both, [], false, false, 2, false⟩)]⟩ : UserState).recs ∧
    ¬ ((rolloverUser ⟨2, [(4, ⟨.both, [], false, false, 2, false⟩)]⟩ 5).totalMealCount =
      sumDaily (rolloverUser ⟨2, [(4, ⟨.both, [], false, false, 2, false⟩)]⟩ 5).recs) := by
  decide

/-- C2: a valid self-service meal change on an existing record sets its
meal and additionalItems, recomputes the served flags (keeping a flag only
when the new meal includes its slot, so Both→Lunch clears dinnerServed),
stores `dailyMealCount = dailyCount(newMeal)` and adds
`dailyCount(newMeal) - dailyCount(oldMeal)` to the counter; with no record
it creates one with both flags false and adds `dailyCount(newMeal)`; other
days' records are untouched; `dailyCount` maps Off/Lunch/Dinner/Both to
0/1/1/2. -/
theorem mealUpdate_spec (u : UserState) (now d : Nat) (m : Meal) (items : List String)
    (hpast : pastCheck d now = false) :
    (mealCount .off = 0 ∧ mealCount .lunch = 1 ∧ mealCount .dinner = 1 ∧
      mealCount .both = 2) ∧
    (∀ r, findEntry u.recs d = some r →
      ∃ u2, selfMealUpdate u now d (mealString m) items = .ok u2 ∧
        u2.totalMealCount = u.totalMealCount + (mealCount m - mealCount r.meal) ∧
        (∃ r2, findEntry u2.recs d = some r2 ∧
          r2.meal = m ∧
          r2.additionalItems = filterItems items ∧
          r2.dailyMealCount = mealCount m ∧
          ((m = .lunch ∨ m = .both) → r2.lunchServed = r.lunchServed) ∧
          (¬(m = .lunch ∨ m = .both) → r2.lunchServed = false) ∧
          ((m = .dinner ∨ m = .both) → r2.dinnerServed = r.dinnerServed) ∧
          (¬(m = .dinner ∨ m = .both) → r2.dinnerServed = false)) ∧
        (∀ d2, d2 ≠ d → findEntry u2.recs d2 = findEntry u.recs d2)) ∧
    (findEntry u.recs d = none →
      ∃ u2, selfMealUpdate u now d (mealString m) items = .ok u2 ∧
        u2.totalMealCount = u.totalMealCount + mealCount m ∧
        findEntry u2.recs d = some
          { meal := m, additionalItems := filterItems items, lunchServed := false,
            dinnerServed := false, dailyMealCount := mealCount m, isExtra := false } ∧
        (∀ d2, d2 ≠ d → findEntry u2.recs d2 = findEntry u.recs d2)) := by
  refine ⟨⟨rfl, rfl, rfl, rfl⟩, ?_, ?_⟩
  · intro r hr
    refine ⟨mealChangeCore u d m (some (filterItems items)), ?_, ?_, ?_, ?_⟩
    · simp [selfMealUpdate, parse_mealString, hpast]
    · simp [mealChangeCore, hr]
    · have hfind : findEntry (mealChangeCore u d m (some (filterItems items))).recs d =
          some { meal := m, additionalItems := filterItems items,
                 dailyMealCount := mealCount m,
                 lunchServed := if m = .both ∨ m = .lunch then r.lunchServed else false,
                 dinnerServed := if m = .both ∨ m = .dinner then r.dinnerServed else false,
                 isExtra := r.isExtra } := by
        simp [mealChangeCore, hr, findEntry_updateFirst]
      refine ⟨_, hfind, rfl, rfl, rfl, ?_, ?_, ?_, ?_⟩
      · intro hm
        exact if_pos (Or.symm hm)
      · intro hm
        exact if_neg (fun hc => hm (Or.symm hc))
      · intro hm
        exact if_pos (Or.symm hm)
      · intro hm
        exact if_neg (fun hc => hm (Or.symm hc))
    · intro d2 hd2
      simp only [mealChangeCore, hr]
      exact findEntry_updateFirst_ne u.recs d d2 _ hd2
  · intro hr
    refine ⟨mealChangeCore u d m (some (filterItems items)), ?_, ?_, ?_, ?_⟩
    · simp [selfMealUpdate, parse_mealString, hpast]
    · simp [mealChangeCore, hr]
    · simp only [mealChangeCore, hr]
      exact findEntry_append_self u.recs d _ hr
    · intro d2 hd2
      simp only [mealChangeCore, hr]
      exact findEntry_append_ne u.recs d d2 _ hd2

/-- C2 witness: a fresh user submitting Lunch for day 1 (now = instant 0)
gets a record with count 1 and a counter increment of 1. -/
theorem mealUpdate_spec_witness :
    ∃ u2, selfMealUpdate ⟨0, []⟩ 0 1 (mealString .lunch) [] = .ok u2 ∧
      u2.totalMealCount = (0 : Int) + mealCount .lunch ∧
      findEntry u2.recs 1 = some
        { meal := .lunch, additionalItems := filterItems [], lunchServed := false,
          dinnerServed := false, dailyMealCount := mealCount .lunch, isExtra := false } ∧
      (∀ d2, d2 ≠ 1 → findEntry u2.recs d2 = findEntry ([] : List (Nat × MealRec)) d2) :=
  (mealUpdate_spec ⟨0, []⟩ 0 1 .lunch [] rfl).2.2 rfl

/-- C3 counterexample: the rollover neither carries the most recent prior
record nor applies the full counter increment.  A user whose only record is
Both on day 2 (most recent prior to day 5) gets an Off/0 record on day 5
(the cron looks up exactly yesterday, day 4); a user whose only record is
Both on day 4 gets a Both/2 record on day 5 yet their totalMealCount stays
2 instead of rising by the full daily count to 4. -/
theorem rollover_carry_counterexample :
    findEntry (rolloverUser ⟨2, [(2, ⟨.both, ["Mutton"], false, false, 2, false⟩)]⟩ 5).recs 5 =
      some ⟨.off, [], false, false, 0, false⟩ ∧
    (rolloverUser ⟨2, [(2, ⟨.both, ["Mutton"], false, false, 2, false⟩)]⟩ 5).totalMealCount = 2 ∧
    findEntry (rolloverUser ⟨2, [(4, ⟨.both, [], false, false, 2, false⟩)]⟩ 5).recs 5 =
      some ⟨.both, [], false, false, 2, false⟩ ∧
    (rolloverUser ⟨2, [(4, ⟨.both, [], false, false, 2, false⟩)]⟩ 5).totalMealCount = 2 := by
  decide

/-- C3 (amended): for a user lacking a record for today, the rollover
creates one carrying forward the record dated exactly yesterday — meal,
additionalItems, count recomputed from the carried meal; served flags and
isExtra false; Off/0 when there is no record for exactly yesterday, even if
older records exist — adds exactly one record for today, leaves every other
day's record untouched, and leaves totalMealCount unchanged (the applied
increment, the recomputed count minus the just-created record's stored
count, is always zero). -/
theorem rollover_creation_spec (u : UserState) (t : Nat)
    (h : findEntry u.recs t = none) :
    (rolloverUser u t).totalMealCount = u.totalMealCount ∧
    (∃ r2, findEntry (rolloverUser u t).recs t = some r2 ∧
      r2.lunchServed = false ∧ r2.dinnerServed = false ∧ r2.isExtra = false ∧
      (∀ p, findEntry u.recs (t - 1) = some p →
        r2.meal = p.meal ∧ r2.additionalItems = p.additionalItems ∧
        r2.dailyMealCount = mealCount p.meal) ∧
      (findEntry u.recs (t - 1) = none →
        r2.meal = .off ∧ r2.additionalItems = [] ∧ r2.dailyMealCount = 0)) ∧
    countAt (rolloverUser u t).recs t = countAt u.recs t + 1 ∧
    (∀ d2, d2 ≠ t → findEntry (rolloverUser u t).recs d2 = findEntry u.recs d2) := by
  have hrecs : (rolloverUser u t).recs =
      u.recs ++ [(t, carriedRec (findEntry u.recs (t - 1)))] := by
    simp only [rolloverUser, h]
    rw [updateFirst_append_self _ _ _ _ h, ← carriedRec_count]
  have htot : (rolloverUser u t).totalMealCount = u.totalMealCount := by
    simp only [rolloverUser, h]
    rw [← carriedRec_count]
    simp
  refine ⟨htot, ⟨carriedRec (findEntry u.recs (t - 1)), ?_, rfl, rfl, rfl, ?_, ?_⟩, ?_, ?_⟩
  · rw [hrecs]
    exact findEntry_append_self _ _ _ h
  · intro p hp
    simp [carriedRec, hp]
  · intro hp
    simp [carriedRec, hp]
  · rw [hrecs, countAt_append]
    have h1 : countAt [(t, carriedRec (findEntry u.recs (t - 1)))] t = 1 := by
      simp [countAt, List.filter_cons]
    omega
  · intro d2 hd2
    rw [hrecs]
    exact findEntry_append_ne _ _ _ _ hd2

/-- C3 witness: a user with no records at all gets an Off/0 record for
day 3 and an unchanged counter. -/
theorem rollover_creation_spec_witness :
    (rolloverUser ⟨7, []⟩ 3).totalMealCount = (⟨7, []⟩ : UserState).totalMealCount ∧
    (∃ r2, findEntry (rolloverUser ⟨7, []⟩ 3).recs 3 = some r2 ∧
      r2.lunchServed = false ∧ r2.dinnerServed = false ∧ r2.isExtra = false ∧
      (∀ p, findEntry ([] : List (Nat × MealRec)) 2 = some p →
        r2.meal = p.meal ∧ r2.additionalItems = p.additionalItems ∧
        r2.dailyMealCount = mealCount p.meal) ∧
      (findEntry ([] : List (Nat × MealRec)) 2 = none →
        r2.meal = .off ∧ r2.additionalItems = [] ∧ r2.dailyMealCount = 0)) ∧
    countAt (rolloverUser ⟨7, []⟩ 3).recs 3 = countAt ([] : List (Nat × MealRec)) 3 + 1 ∧
    (∀ d2, d2 ≠ 3 →
      findEntry (rolloverUser ⟨7, []⟩ 3).recs d2 =
        findEntry ([] : List (Nat × MealRec)) d2) :=
  rollover_creation_spec ⟨7, []⟩ 3 rfl

/-- C4: the daily rollover is idempotent — a second pass on the same day
maps every user to exactly the state the first pass produced (so it creates
no record and changes no counter), and after a pass each user has a
today-record count of `max(previous count, 1)`, i.e. exactly one when the
store held at most one. -/
theorem rollover_idempotent (us : List UserState) (t : Nat) :
    rolloverAll (rolloverAll us t) t = rolloverAll us t ∧
    (∀ u : UserState,
      (rolloverUser (rolloverUser u t) t).recs = (rolloverUser u t).recs) ∧
    (∀ u : UserState,
      (rolloverUser (rolloverUser u t) t).totalMealCount =
        (rolloverUser u t).totalMealCount) ∧
    (∀ u : UserState, countAt (rolloverUser u t).recs t = max (countAt u.recs t) 1) := by
  refine ⟨?_, ?_, ?_, ?_⟩
  · unfold rolloverAll
    rw [List.map_map]
    exact List.map_congr_left fun u _ => rolloverUser_idem u t
  · intro u
    rw [rolloverUser_idem]
  · intro u
    rw [rolloverUser_idem]
  · intro u
    exact rolloverUser_countAt u t

/-- C5 counterexample: three users on day 3 — A has a Lunch record (counter
1, consistent), B has an Off record, C has no record.  The bulk extra-grant
of Lunch flips only B's record, reports 1, leaves C without any record (a
user with no record is NOT treated as Off), and increments A's counter from
1 to 2 although A was not an affected Off user (the aggregate increment
hits every user whose final record meal equals the granted type). -/
theorem bulk_extra_counterexample :
    grantExtraAll [⟨1, [(3, ⟨.lunch, [], false, false, 1, false⟩)]⟩,
                   ⟨0, [(3, ⟨.off, [], false, false, 0, false⟩)]⟩,
                   ⟨0, []⟩] 3 "Lunch"
      = .ok ([⟨2, [(3, ⟨.lunch, [], false, false, 1, false⟩)]⟩,
              ⟨1, [(3, ⟨.lunch, [], false, false, 1, true⟩)]⟩,
              ⟨0, []⟩], 1) ∧
    (2 : Int) ≠ 1 ∧
    findEntry ([] : List (Nat × MealRec)) 3 = none := by
  decide

/-- C5 (amended): with a valid meal type and one record per (user, date),
the bulk extra-grant flips exactly the EXISTING Off records of the date to
the granted type (count 2 for Both else 1, flags false, isExtra true) and
reports their number; users with no record for the date keep none and are
untouched; then, when at least one record was flipped, every user whose
final record for the date has the granted meal — the flipped users and
those who already had that meal — gets the count added to totalMealCount;
all other users and all other days' records are unchanged. -/
theorem grantExtraAll_spec (us : List UserState) (d : Nat) (mtStr : String)
    (mt : Meal) (hmt : parseExtraType mtStr = some mt)
    (hnd : ∀ u ∈ us, (u.recs.map Prod.fst).Nodup) :
    ∃ us2, grantExtraAll us d mtStr =
        .ok (us2, (us.map (fun v => bulkModifiedCount d v)).sum) ∧
      List.Forall₂ (fun u u2 : UserState =>
        (∀ r, findEntry u.recs d = some r → r.meal = .off →
          findEntry u2.recs d = some (flippedRec mt r) ∧
          u2.totalMealCount = u.totalMealCount + (if mt = .both then 2 else 1)) ∧
        (findEntry u.recs d = none →
          u2.recs = u.recs ∧ u2.totalMealCount = u.totalMealCount) ∧
        (∀ r, findEntry u.recs d = some r → r.meal ≠ .off → r.meal ≠ mt →
          u2.recs = u.recs ∧ u2.totalMealCount = u.totalMealCount) ∧
        (∀ r, findEntry u.recs d = some r → r.meal = mt →
          u2.recs = u.recs ∧
          u2.totalMealCount = u.totalMealCount +
            (if 0 < (us.map (fun v => bulkModifiedCount d v)).sum
             then (if mt = .both then 2 else 1) else 0)) ∧
        (∀ d2, d2 ≠ d → findEntry u2.recs d2 = findEntry u.recs d2)) us us2 := by
  have hmtoff : mt ≠ .off := parseExtraType_ne_off mtStr mt hmt
  refine ⟨(if 0 < (us.map (fun u => bulkModifiedCount d u)).sum
      then (us.map (fun u =>
        ({ totalMealCount := u.totalMealCount, recs := bulkFlipRecs d mt u.recs } :
          UserState))).map (fun u => bulkIncUser d mt u)
      else us.map (fun u =>
        ({ totalMealCount := u.totalMealCount, recs := bulkFlipRecs d mt u.recs } :
          UserState))), ?_, ?_⟩
  · simp [grantExtraAll, hmt]
  by_cases hn : 0 < (us.map (fun v => bulkModifiedCount d v)).sum
  · simp only [hn, if_true, List.map_map]
    apply forall₂_map_of_mem
    intro u hu
    have hndu := hnd u hu
    refine ⟨?_, ?_, ?_, ?_, ?_⟩
    · intro r hr hro
      have hff : findEntry (bulkFlipRecs d mt u.recs) d = some (flippedRec mt r) := by
        rw [findEntry_bulkFlip, hr]
        simp [hro]
      have hany := bulkAny_true d mt (bulkFlipRecs d mt u.recs) (flippedRec mt r) hff rfl
      dsimp only [Function.comp]
      rw [bulkIncUser_pos d mt _ hany]
      exact ⟨hff, rfl⟩
    · intro hre
      have hfl : bulkFlipRecs d mt u.recs = u.recs := by
        apply bulkFlip_eq_self
        intro p hp hpd
        exact absurd hpd ((findEntry_none_iff u.recs d).mp hre p hp)
      have hany : (bulkFlipRecs d mt u.recs).any
          (fun p => decide (p.1 = d ∧ p.2.meal = mt)) = false := by
        rw [hfl]
        exact bulkAny_false d mt u.recs hre
      dsimp only [Function.comp]
      rw [bulkIncUser_neg d mt _ hany]
      exact ⟨hfl, rfl⟩
    · intro r hr hro hrm
      have hfl : bulkFlipRecs d mt u.recs = u.recs := by
        apply bulkFlip_eq_self
        intro p hp hpd
        rw [nodup_snd_of_mem u hndu p hp d hpd r hr]
        exact hro
      have hany : (bulkFlipRecs d mt u.recs).any
          (fun p => decide (p.1 = d ∧ p.2.meal = mt)) = false := by
        rw [hfl, ← Bool.not_eq_true, List.any_eq_true]
        rintro ⟨p, hp, hd⟩
        simp only [decide_eq_true_eq] at hd
        rw [nodup_snd_of_mem u hndu p hp d hd.1 r hr] at hd
        exact hrm hd.2
      dsimp only [Function.comp]
      rw [bulkIncUser_neg d mt _ hany]
      exact ⟨hfl, rfl⟩
    · intro r hr hrm
      have hfl : bulkFlipRecs d mt u.recs = u.recs := by
        apply bulkFlip_eq_self
        intro p hp hpd
        rw [nodup_snd_of_mem u hndu p hp d hpd r hr, hrm]
        exact hmtoff
      have hany : (bulkFlipRecs d mt u.recs).any
          (fun p => decide (p.1 = d ∧ p.2.meal = mt)) = true := by
        rw [hfl]
        exact bulkAny_true d mt u.recs r hr hrm
      dsimp only [Function.comp]
      rw [bulkIncUser_pos d mt _ hany]
      exact ⟨hfl, rfl⟩
    · intro d2 hd2
      have hu2 : findEntry (bulkFlipRecs d mt u.recs) d2 = findEntry u.recs d2 := by
        rw [findEntry_bulkFlip]
        cases findEntry u.recs d2 <;> simp [hd2]
      dsimp only [Function.comp]
      cases hany : (bulkFlipRecs d mt u.recs).any
          (fun p => decide (p.1 = d ∧ p.2.meal = mt)) with
      | true =>
        rw [bulkIncUser_pos d mt _ hany]
        exact hu2
      | false =>
        rw [bulkIncUser_neg d mt _ hany]
        exact hu2
  · simp only [hn, if_false]
    apply forall₂_map_of_mem
    intro u hu
    have hndu := hnd u hu
    refine ⟨?_, ?_, ?_, ?_, ?_⟩
    · intro r hr hro
      exfalso
      have h1 : bulkModifiedCount d u ≤ (us.map (fun v => bulkModifiedCount d v)).sum :=
        List.single_le_sum (fun x _ => Nat.zero_le x) _ (List.mem_map_of_mem _ hu)
      have h2 := bulkModified_pos d u r hr hro
      omega
    · intro hre
      have hfl : bulkFlipRecs d mt u.recs = u.recs := by
        apply bulkFlip_eq_self
        intro p hp hpd
        exact absurd hpd ((findEntry_none_iff u.recs d).mp hre p hp)
      exact ⟨hfl, rfl⟩
    · intro r hr hro hrm
      have hfl : bulkFlipRecs d mt u.recs = u.recs := by
        apply bulkFlip_eq_self
        intro p hp hpd
        rw [nodup_snd_of_mem u hndu p hp d hpd r hr]
        exact hro
      exact ⟨hfl, rfl⟩
    · intro r hr hrm
      have hfl : bulkFlipRecs d mt u.recs = u.recs := by
        apply bulkFlip_eq_self
        intro p hp hpd
        rw [nodup_snd_of_mem u hndu p hp d hpd r hr, hrm]
        exact hmtoff
      exact ⟨hfl, by simp⟩
    · intro d2 hd2
      have hu2 : findEntry (bulkFlipRecs d mt u.recs) d2 = findEntry u.recs d2 := by
        rw [findEntry_bulkFlip]
        cases findEntry u.recs d2 <;> simp [hd2]
      exact hu2

/-- C5 witness: one user with an Off record on day 3 is flipped by the bulk
Lunch grant, reported as 1 modified. -/
theorem grantExtraAll_spec_witness :
    ∃ us2, grantExtraAll [⟨0, [(3, ⟨.off, [], false, false, 0, false⟩)]⟩] 3 "Lunch" =
      .ok (us2, 1) := by
  obtain ⟨us2, heq, -⟩ := grantExtraAll_spec
    [⟨0, [(3, ⟨.off, [], false, false, 0, false⟩)]⟩] 3 "Lunch" .lunch rfl (by decide)
  exact ⟨us2, heq⟩

/-- C6: a specific extra grant of a slot — with no record or an Off record
the day's record becomes the slot with count 1; with the opposite single
slot it becomes Both with count 2; in both success cases isExtra is set and
the counter rises by the new count minus the old (0→1: +1; 1→2: +1); when
the slot is already part of the meal the call fails with "already enabled"
(AlreadyGrantedError) and the state is returned exactly as it was. -/
theorem grantExtra_spec (u : UserState) (d : Nat) (isL : Bool) :
    ((findEntry u.recs d = none ∨ (∃ r, findEntry u.recs d = some r ∧ r.meal = .off)) →
      ∃ u2, grantExtra u d (slotName isL) = (u2, none) ∧
        u2.totalMealCount = u.totalMealCount + 1 ∧
        (∃ r2, findEntry u2.recs d = some r2 ∧ r2.meal = slotMeal isL ∧
          r2.dailyMealCount = 1 ∧ r2.isExtra = true)) ∧
    (∀ r, findEntry u.recs d = some r → r.meal = slotMeal (!isL) →
      ∃ u2, grantExtra u d (slotName isL) = (u2, none) ∧
        u2.totalMealCount = u.totalMealCount + (2 - mealCount r.meal) ∧
        (∃ r2, findEntry u2.recs d = some r2 ∧ r2.meal = .both ∧
          r2.dailyMealCount = 2 ∧ r2.isExtra = true)) ∧
    (∀ r, findEntry u.recs d = some r → (r.meal = slotMeal isL ∨ r.meal = .both) →
      grantExtra u d (slotName isL) = (u, some .alreadyEnabled)) := by
  have hp := parse_slotName isL
  refine ⟨?_, ?_, ?_⟩
  · rintro (hr | ⟨r, hr, hoff⟩)
    · have h2 : (grantExtra u d (slotName isL)).2 = none := by
        simp [grantExtra, hp, hr, carriedRec]
      have htot : (grantExtra u d (slotName isL)).1.totalMealCount =
          u.totalMealCount + 1 := by
        simp [grantExtra, hp, hr, carriedRec, mealCount]
      have e : findEntry (grantExtra u d (slotName isL)).1.recs d =
          some { meal := slotMeal isL, additionalItems := [], lunchServed := false,
                 dinnerServed := false, dailyMealCount := 1, isExtra := true } := by
        simp only [grantExtra, hp, hr, carriedRec, if_pos, if_true, reduceIte]
        rw [updateFirst_append_self _ _ _ _ hr, findEntry_append_self _ _ _ hr]
        simp
      exact ⟨_, Prod.ext rfl h2, htot, _, e, rfl, rfl, rfl⟩
    · have h2 : (grantExtra u d (slotName isL)).2 = none := by
        simp [grantExtra, hp, hr, hoff]
      have htot : (grantExtra u d (slotName isL)).1.totalMealCount =
          u.totalMealCount + 1 := by
        simp [grantExtra, hp, hr, hoff, mealCount]
      have e : findEntry (grantExtra u d (slotName isL)).1.recs d =
          some { meal := slotMeal isL, additionalItems := r.additionalItems,
                 lunchServed := if slotMeal isL = .both ∨ slotMeal isL = .lunch
                   then r.lunchServed else false,
                 dinnerServed := if slotMeal isL = .both ∨ slotMeal isL = .dinner
                   then r.dinnerServed else false,
                 dailyMealCount := 1, isExtra := true } := by
        simp only [grantExtra, hp, hr, hoff]
        simp [findEntry_updateFirst, hr]
      exact ⟨_, Prod.ext rfl h2, htot, _, e, rfl, rfl, rfl⟩
  · intro r hr hm
    have hmo : ¬ r.meal = .off := by cases isL <;> simp_all [slotMeal]
    have hcond : (r.meal = .lunch ∧ slotMeal isL = .dinner) ∨
        (r.meal = .dinner ∧ slotMeal isL = .lunch) := by
      cases isL <;> simp_all [slotMeal]
    have h2 : (grantExtra u d (slotName isL)).2 = none := by
      simp [grantExtra, hp, hr, hmo, hcond]
    have htot : (grantExtra u d (slotName isL)).1.totalMealCount =
        u.totalMealCount + (2 - mealCount r.meal) := by
      simp [grantExtra, hp, hr, hmo, hcond]
    have e : findEntry (grantExtra u d (slotName isL)).1.recs d =
        some { meal := .both, additionalItems := r.additionalItems,
               lunchServed := r.lunchServed, dinnerServed := r.dinnerServed,
               dailyMealCount := 2, isExtra := true } := by
      simp only [grantExtra, hp, hr]
      simp [hmo, hcond, findEntry_updateFirst, hr]
    exact ⟨_, Prod.ext rfl h2, htot, _, e, rfl, rfl, rfl⟩
  · intro r hr hm
    have hmo : ¬ r.meal = .off := by
      rcases hm with hm | hm <;> cases isL <;> simp_all [slotMeal]
    have hcond : ¬ ((r.meal = .lunch ∧ slotMeal isL = .dinner) ∨
        (r.meal = .dinner ∧ slotMeal isL = .lunch)) := by
      rcases hm with hm | hm <;> cases isL <;> simp_all [slotMeal]
    have h1 : ({ totalMealCount := u.totalMealCount, recs := u.recs } : UserState) = u := rfl
    simp [grantExtra, hp, hr, hmo, hcond, h1]

/-- C6 witness: granting Dinner to a user with no record for day 4 yields a
Dinner/1 record marked isExtra and a counter increment of 1. -/
theorem grantExtra_spec_witness :
    ∃ u2, grantExtra ⟨0, []⟩ 4 (slotName false) = (u2, none) ∧
      u2.totalMealCount = (0 : Int) + 1 ∧
      (∃ r2, findEntry u2.recs 4 = some r2 ∧ r2.meal = slotMeal false ∧
        r2.dailyMealCount = 1 ∧ r2.isExtra = true) :=
  (grantExtra_spec ⟨0, []⟩ 4 false).1 (Or.inl rfl)

/-- C7: on a day's document satisfying I3 (served flags only where the meal
includes the slot — an invariant every handler preserves), serving a slot
fails when the meal is Off ("Cannot serve meal for Off status") or does not
include the slot ("not enabled") — both NotEnabledError class; fails with
AlreadyServedError when that slot's flag is already set; otherwise succeeds
and sets exactly that slot's flag, leaving the other flag and the meal
untouched; and after a success an identical second call always fails with
AlreadyServedError, never silently succeeds. -/
theorem serveMeal_spec (u : UserState) (d : Nat) (isL : Bool)
    (hok : flagsOk (serveTarget u d)) :
    ((serveTarget u d).meal = .off →
      (serveMeal u d (slotName isL)).2 = some .offStatus) ∧
    (¬ mealIncludes (serveTarget u d).meal isL →
      (serveMeal u d (slotName isL)).2 = some .offStatus ∨
      (serveMeal u d (slotName isL)).2 = some .notEnabled) ∧
    (slotFlag isL (serveTarget u d) = true →
      (serveMeal u d (slotName isL)).2 = some .alreadyServed) ∧
    (mealIncludes (serveTarget u d).meal isL ∧ slotFlag isL (serveTarget u d) = false →
      (serveMeal u d (slotName isL)).2 = none ∧
      (∃ r2, findEntry (serveMeal u d (slotName isL)).1.recs d = some r2 ∧
        slotFlag isL r2 = true ∧ slotFlag (!isL) r2 = slotFlag (!isL) (serveTarget u d) ∧
        r2.meal = (serveTarget u d).meal)) ∧
    ((serveMeal u d (slotName isL)).2 = none →
      (serveMeal (serveMeal u d (slotName isL)).1 d (slotName isL)).2 =
        some .alreadyServed) := by
  have hp := parse_slotName isL
  have hfind := serveRecs_find u d
  simp only [serveMeal, hp]
  generalize hg : serveTarget u d = rr at hok hfind ⊢
  generalize hs : serveRecs u d = L at hfind ⊢
  obtain ⟨m, it, ls, ds, c, ie⟩ := rr
  obtain ⟨hok1, hok2⟩ := hok
  cases isL <;> cases m <;> cases ls <;> cases ds <;>
    simp_all [slotMeal, slotFlag, mealIncludes, serveMeal, serveTarget, serveRecs,
      slotName, parseServeSlot, findEntry_updateFirst]

/-- C7 witness: a Both record with neither slot served satisfies I3; serving
Lunch succeeds, sets lunchServed only, and keeps meal Both. -/
theorem serveMeal_spec_witness :
    (serveMeal ⟨0, [(4, ⟨.both, [], false, false, 2, false⟩)]⟩ 4 (slotName true)).2 =
      none ∧
    (∃ r2, findEntry
        (serveMeal ⟨0, [(4, ⟨.both, [], false, false, 2, false⟩)]⟩ 4
          (slotName true)).1.recs 4 = some r2 ∧
      slotFlag true r2 = true ∧
      slotFlag (!true) r2 =
        slotFlag (!true) (serveTarget ⟨0, [(4, ⟨.both, [], false, false, 2, false⟩)]⟩ 4) ∧
      r2.meal = (serveTarget ⟨0, [(4, ⟨.both, [], false, false, 2, false⟩)]⟩ 4).meal) :=
  (serveMeal_spec ⟨0, [(4, ⟨.both, [], false, false, 2, false⟩)]⟩ 4 true
    (by constructor <;> decide)).2.2.2.1
    ⟨by unfold mealIncludes; decide, by decide⟩

/-- C8: a meal-change request fails with "Invalid meal type"
(ValidationError) exactly when the submitted meal string is not one of the
four enum values — on the self-service and the staff path alike; the
self-service path fails with the past-date error (DateError) exactly when
the requested day is strictly before the current day; the staff path never
raises the past-date error and, whenever the self-service path would
succeed, produces the same counter value and the same core (meal, count,
served flags, isExtra) for every day's record — the delta-based algorithm
is identical, only the past-date restriction (and the additionalItems
payload, which the staff path does not touch) differs. -/
theorem validation_spec (u : UserState) (now d : Nat) (s : String)
    (items : List String) :
    (selfMealUpdate u now d s items = .error .invalidMeal ↔ parseMealChoice s = none) ∧
    (staffMealUpdate u d s = .error .invalidMeal ↔ parseMealChoice s = none) ∧
    (∀ m, parseMealChoice s = some m →
      (selfMealUpdate u now d s items = .error .pastDate ↔ d < now / msPerDay)) ∧
    (∀ m, parseMealChoice s = some m →
      ∃ uStaff, staffMealUpdate u d s = .ok uStaff ∧
        (pastCheck d now = false →
          ∃ uSelf, selfMealUpdate u now d s items = .ok uSelf ∧
            uSelf.totalMealCount = uStaff.totalMealCount ∧
            (∀ d2, (findEntry uSelf.recs d2).map recCore =
              (findEntry uStaff.recs d2).map recCore))) := by
  refine ⟨?_, ?_, ?_, ?_⟩
  · cases hp : parseMealChoice s with
    | none => simp [selfMealUpdate, hp]
    | some m =>
      simp only [selfMealUpdate, hp]
      by_cases hpc : pastCheck d now = true <;> simp [hpc]
  · cases hp : parseMealChoice s with
    | none => simp [staffMealUpdate, hp]
    | some m => simp [staffMealUpdate, hp]
  · intro m hp
    simp only [selfMealUpdate, hp]
    rw [← pastCheck_iff]
    by_cases hpc : pastCheck d now = true <;> simp [hpc]
  · intro m hp
    refine ⟨mealChangeCore u d m none, by simp [staffMealUpdate, hp], ?_⟩
    intro hpc
    refine ⟨mealChangeCore u d m (some (filterItems items)),
      by simp [selfMealUpdate, hp, hpc], ?_, ?_⟩
    · exact (mealChangeCore_items_agree u d m _ _).1
    · exact (mealChangeCore_items_agree u d m _ _).2

/-- C8 witness: the string "Snack" is rejected as an invalid meal type. -/
theorem validation_spec_witness :
    (selfMealUpdate ⟨0, []⟩ 0 1 "Snack" [] = .error .invalidMeal ↔
      parseMealChoice "Snack" = none) :=
  (validation_spec ⟨0, []⟩ 0 1 "Snack" []).1

/-- C9 counterexample: a Lunch record with lunch unserved is reported with
pending slot "Dinner" (not its own slot "Lunch"), and a Both record with
BOTH slots unserved is reported with only "Lunch" pending — the two slots
are not derived independently, contradicting the claimed derivation. -/
theorem pending_query_counterexample :
    offMealsAllUsers (some ⟨.lunch, [], false, false, 1, false⟩) = ["Dinner"] ∧
    ¬ "Lunch" ∈ offMealsAllUsers (some ⟨.lunch, [], false, false, 1, false⟩) ∧
    offMealsAllUsers (some ⟨.both, [], false, false, 2, false⟩) = ["Lunch"] ∧
    ¬ "Dinner" ∈ offMealsAllUsers (some ⟨.both, [], false, false, 2, false⟩) ∧
    offMealsOffUsers (some ⟨.both, [], false, false, 2, false⟩) = ["Lunch"] := by
  decide

/-- C9 (amended): the read-only pending-slot queries derive, per user: Off
or no record → both Lunch and Dinner pending; in the all-users variant a
single-meal state with its own slot unserved yields the OPPOSITE slot
(Lunch → Dinner, Dinner → Lunch), while the off-users variant yields the
meal's own slot; Both yields Lunch when lunchServed is false, and Dinner
only when lunchServed is true and dinnerServed is false — never both; and
the handlers return the store unchanged (they only run find queries). -/
theorem pending_query_spec (r : Option MealRec) (us : List UserState) (d : Nat) :
    ("Lunch" ∈ offMealsAllUsers r ↔
      (mealOf r = .off ∨ (mealOf r = .dinner ∧ dinnerServedOf r = false) ∨
        (mealOf r = .both ∧ lunchServedOf r = false))) ∧
    ("Dinner" ∈ offMealsAllUsers r ↔
      (mealOf r = .off ∨ (mealOf r = .lunch ∧ lunchServedOf r = false) ∨
        (mealOf r = .both ∧ lunchServedOf r = true ∧ dinnerServedOf r = false))) ∧
    ("Lunch" ∈ offMealsOffUsers r ↔
      (mealOf r = .off ∨ (mealOf r = .lunch ∧ lunchServedOf r = false) ∨
        (mealOf r = .both ∧ lunchServedOf r = false))) ∧
    ("Dinner" ∈ offMealsOffUsers r ↔
      (mealOf r = .off ∨ (mealOf r = .dinner ∧ dinnerServedOf r = false) ∨
        (mealOf r = .both ∧ lunchServedOf r = true ∧ dinnerServedOf r = false))) ∧
    (allUsersQuery us d).1 = us ∧ (offUsersQuery us d).1 = us := by
  refine ⟨?_, ?_, ?_, ?_, rfl, rfl⟩ <;>
    ( cases r with
      | none =>
        simp [offMealsAllUsers, offMealsOffUsers, mealOf, lunchServedOf, dinnerServedOf]
      | some x =>
        obtain ⟨m, it, ls, ds, c, ie⟩ := x
        cases m <;> cases ls <;> cases ds <;>
          simp [offMealsAllUsers, offMealsOffUsers, mealOf, lunchServedOf,
            dinnerServedOf] )

/-- C10: no serve-marking call ever changes the user's totalMealCount — on
every path, including the one that synthesises a missing record carried
forward from the most recent prior record with a possibly nonzero
dailyMealCount, the counter is returned exactly as it was. -/
theorem serve_preserves_totalMealCount (u : UserState) (d : Nat) (slotStr : String) :
    (serveMeal u d slotStr).1.totalMealCount = u.totalMealCount := by
  unfold serveMeal
  cases parseServeSlot slotStr with
  | none => rfl
  | some slot =>
    dsimp only
    repeat' split
    all_goals rfl

end SMCMeal
